import Mathlib

/-!
Shallow embedding of the agent execution engine of the repository
(src/agents/base_agent.py and src/agents/orchestrator_agent.py).

Python dictionaries are embedded as association lists in insertion order:
assignment to an existing key replaces the stored value in place, assignment
to a fresh key appends.  Python exceptions are embedded as `Except String`
values whose payload is the text `str(e)` of the exception.  The Vertex AI
Model Gateway is embedded as a script: the list of replies that successive
`chat.send_message` calls receive, each reply either a model response or a
raised transport error.
-/

set_option autoImplicit false

universe u

/-- A Python value as it occurs in contexts, tool arguments, tool results and
response metadata: strings, integers, lists and string-keyed dictionaries. -/
inductive Value where
  | str : String → Value
  | nat : Nat → Value
  | list : List Value → Value
  | dict : List (String × Value) → Value

/-- Lookup in a Python dict embedded as an association list. -/
def lookupKey {α : Type u} : List (String × α) → String → Option α
  | [], _ => none
  | (k', v) :: rest, k => if k' = k then some v else lookupKey rest k

/-- Assignment `d[k] = v` on a Python dict embedded as an association list:
replace in place when the key exists, append otherwise. -/
def setKey {α : Type u} : List (String × α) → String → α → List (String × α)
  | [], k, v => [(k, v)]
  | (k', v') :: rest, k, v =>
      if k' = k then (k, v) :: rest else (k', v') :: setKey rest k v

/-- A context dictionary (`Dict[str, Any]` in the source). -/
abbrev Ctx := List (String × Value)

/-- `AgentStatus` enum of base_agent.py. -/
inductive AgentStatus where
  | idle
  | running
  | completed
  | failed
deriving DecidableEq

/-- One entry of the `tool_calls` list built by `generate_with_tools`:
the dict with keys `function`, `args` and `result`. -/
structure ToolCallRec where
  function : String
  args : List (String × Value)
  result : Value

/-- The `AgentResponse` dataclass of base_agent.py. -/
structure AgentResponse where
  agent_name : String
  content : String
  status : AgentStatus
  metadata : List (String × Value) := []
  tool_calls : List ToolCallRec := []
  error : Option String := none

/-- A registered tool executable: named arguments in, result out, and it may
raise (embedded as `Except.error` carrying the exception text). -/
abbrev ToolFn := List (String × Value) → Except String Value

/-- A `FunctionDeclaration` built by `add_tool`: the schema the Model Gateway
sees. -/
structure FunctionDeclaration where
  name : String
  description : String
  parameters : Value

/-- One part of a model response.  The source checks
`hasattr(part, 'function_call')` to decide whether the part is a tool request;
the embedding makes that distinction a constructor. -/
inductive RespPart where
  | functionCall : String → List (String × Value) → RespPart
  | other : RespPart

/-- A response of the Model Gateway as the loop reads it:
`response.candidates[0].content.parts`, the optional `response.text`
attribute, and the `str(response)` rendering used when `text` is absent. -/
structure ModelResponse where
  parts : List RespPart
  text : Option String
  reprStr : String

/-- A message sent to the Model Gateway through `chat.send_message`:
either the initial prompt or a `RespPart.from_function_response` payload. -/
inductive Sent where
  | prompt : String → Sent
  | functionResponse : String → Value → Sent

/-- The Model Gateway script: what each successive `send_message` call
returns, either a response or a raised transport error text. -/
abbrev GatewayScript := List (Except String ModelResponse)

/-- The mutable state of a `BaseAgent` relevant to tool registration and
`generate_with_tools`: `self.tools`, `self.tool_functions`, `self.model`
(presence flag), plus configuration fields read by those methods.
The float `temperature` is embedded by its display string. -/
structure GenAgent where
  name : String
  model_name : String
  temperature_str : String
  model_initialized : Bool
  tools : List FunctionDeclaration
  tool_functions : List (String × ToolFn)
  script : GatewayScript

/-- `BaseAgent.add_tool`: append a `FunctionDeclaration` to `self.tools` and
assign `self.tool_functions[tool_name] = tool_function`.
(The `FunctionDeclaration` and `Tool` constructors are embedded as pure
constructors, so the except branch of the source is unreachable here.) -/
def add_tool (g : GenAgent) (tool_name tool_description : String)
    (tool_function : ToolFn) (parameters : Value) : GenAgent :=
  { g with
    tools := g.tools ++ [⟨tool_name, tool_description, parameters⟩],
    tool_functions := setKey g.tool_functions tool_name tool_function }

/-- One tool-registration request, for iterated registration. -/
structure ToolReg where
  name : String
  description : String
  fn : ToolFn
  parameters : Value

/-- A sequence of `add_tool` calls. -/
def add_tools (g : GenAgent) : List ToolReg → GenAgent
  | [] => g
  | r :: rest => add_tools (add_tool g r.name r.description r.fn r.parameters) rest

/-- `BaseAgent._handle_tool_call`: dispatch a model tool request.  Unknown
names yield the structured dict with the `Tool not found` error; a raising
tool yields a `Tool execution failed` dict; otherwise the tool result. -/
def handle_tool_call (tfs : List (String × ToolFn)) (function_name : String)
    (function_args : List (String × Value)) : Value :=
  match lookupKey tfs function_name with
  | none => Value.dict [("error", Value.str ("Tool not found: " ++ function_name))]
  | some f =>
    match f function_args with
    | Except.ok result => result
    | Except.error e =>
        Value.dict [("error", Value.str ("Tool execution failed: " ++ e))]

/-- `response.text if hasattr(response, 'text') else str(response)`. -/
def contentOf (r : ModelResponse) : String :=
  match r.text with
  | some t => t
  | none => r.reprStr

/-- Outcome of the while-loop of `generate_with_tools`: either the loop broke
out normally (final content and the accumulated `tool_calls`), or a
`send_message` call raised (the exception text, the records accumulated so
far in the local variable that the except handler then discards, and either
way the transcript of messages sent). -/
inductive LoopOut where
  | done : String → List ToolCallRec → List Sent → LoopOut
  | failed : String → List ToolCallRec → List Sent → LoopOut

/-- The `while response.candidates[0].content.parts:` loop of
`generate_with_tools`.  `script` holds the replies of the remaining
`send_message` calls; `acc` is the local `tool_calls` list; `sent` the
transcript of messages delivered to the Model Gateway so far. -/
def convLoop (tfs : List (String × ToolFn)) (resp : ModelResponse)
    (script : GatewayScript) (acc : List ToolCallRec) (sent : List Sent) : LoopOut :=
  match resp.parts, script with
  | [], _ => LoopOut.done (contentOf resp) acc sent
  | RespPart.other :: _, _ => LoopOut.done (contentOf resp) acc sent
  | RespPart.functionCall fname fargs :: _, [] =>
      LoopOut.failed "gateway: no scripted response"
        (acc ++ [⟨fname, fargs, handle_tool_call tfs fname fargs⟩])
        (sent ++ [Sent.functionResponse fname
          (Value.dict [("result", handle_tool_call tfs fname fargs)])])
  | RespPart.functionCall fname fargs :: _, Except.error e :: _ =>
      LoopOut.failed e
        (acc ++ [⟨fname, fargs, handle_tool_call tfs fname fargs⟩])
        (sent ++ [Sent.functionResponse fname
          (Value.dict [("result", handle_tool_call tfs fname fargs)])])
  | RespPart.functionCall fname fargs :: _, Except.ok next :: rest =>
      convLoop tfs next rest
        (acc ++ [⟨fname, fargs, handle_tool_call tfs fname fargs⟩])
        (sent ++ [Sent.functionResponse fname
          (Value.dict [("result", handle_tool_call tfs fname fargs)])])

/-- `BaseAgent.generate_with_tools`, paired with the transcript of messages
sent to the Model Gateway (empty iff the gateway was never called).
When a `send_message` raises, the except handler returns a fresh failed
`AgentResponse`: the error text is kept verbatim but the local `tool_calls`
list is discarded, so the returned record list is empty. -/
def generate_with_tools_t (g : GenAgent) (prompt : String) : AgentResponse × List Sent :=
  if g.model_initialized = false then
    ({ agent_name := g.name, content := "", status := AgentStatus.failed,
       error := some "Model not initialized" }, [])
  else
    let sent0 : List Sent := [Sent.prompt prompt]
    match g.script with
    | [] =>
        ({ agent_name := g.name, content := "", status := AgentStatus.failed,
           error := some "gateway: no scripted response" }, sent0)
    | Except.error e :: _ =>
        ({ agent_name := g.name, content := "", status := AgentStatus.failed,
           error := some e }, sent0)
    | Except.ok r :: rest =>
      match convLoop g.tool_functions r rest [] sent0 with
      | LoopOut.done content calls sent =>
          ({ agent_name := g.name, content := content, status := AgentStatus.completed,
             tool_calls := calls,
             metadata := [("model", Value.str g.model_name),
                          ("temperature", Value.str g.temperature_str)] }, sent)
      | LoopOut.failed e _ sent =>
          ({ agent_name := g.name, content := "", status := AgentStatus.failed,
             error := some e }, sent)

/-- `BaseAgent.generate_with_tools` proper: the returned `AgentResponse`. -/
def generate_with_tools (g : GenAgent) (prompt : String) : AgentResponse :=
  (generate_with_tools_t g prompt).1

/-- The behaviour of a concrete agent as `BaseAgent.run` sees it: the
`preprocess_task`, `process_task` and `postprocess_response` methods, each of
which may raise (embedded as `Except.error` carrying the exception text).
`context` is `Optional` in the source, hence `Option Ctx`. -/
structure Agent where
  name : String
  preprocess : String → Option Ctx → Except String String
  process : String → Option Ctx → Except String AgentResponse
  postprocess : AgentResponse → Except String AgentResponse

/-- The body of the try-block of `BaseAgent.run`:
preprocess, process, postprocess, propagating any raised exception. -/
def Agent.runExcept (a : Agent) (task : String) (context : Option Ctx) :
    Except String AgentResponse := do
  let processed_task ← a.preprocess task context
  let response ← a.process processed_task context
  a.postprocess response

/-- `BaseAgent.run`: returns the final response together with the value of
`self.status` after the call.  On success the status becomes `COMPLETED`
(whatever the status stored in the returned response); on a raised exception
the except handler sets `FAILED` and builds a failed response whose error is
the prefixed exception text.  The function is total: `run` never propagates
an exception to its caller. -/
def Agent.run (a : Agent) (task : String) (context : Option Ctx) :
    AgentResponse × AgentStatus :=
  match a.runExcept task context with
  | Except.ok final_response => (final_response, AgentStatus.completed)
  | Except.error e =>
      ({ agent_name := a.name, content := "", status := AgentStatus.failed,
         error := some ("Agent execution failed: " ++ e) }, AgentStatus.failed)

/-- The values produced inside `BaseAgent.collaborate`: both responses, the
derived task and context handed to the second agent, and the returned dict. -/
structure CollabOut where
  my_response : AgentResponse
  other_task : String
  other_context : Ctx
  other_response : AgentResponse
  mapping : List (String × AgentResponse)

/-- `BaseAgent.collaborate`: this agent runs the task first; the other agent
then runs the derived task with the collaboration context; the Python dict
literal keyed by the two agent names is built left to right (so a shared
name keeps only the later entry). -/
def collaborate (a other_agent : Agent) (task : String) : CollabOut :=
  let my_response := (Agent.run a task none).1
  let collaboration_context : Ctx :=
    [("previous_agent", Value.str a.name),
     ("previous_response", Value.str my_response.content)]
  let derived_task :=
    "Build upon this previous work:\n" ++ my_response.content ++ "\n\nTask: " ++ task
  let other_response := (Agent.run other_agent derived_task (some collaboration_context)).1
  { my_response := my_response,
    other_task := derived_task,
    other_context := collaboration_context,
    other_response := other_response,
    mapping := setKey (setKey [] a.name my_response) other_agent.name other_response }

/-- A workflow step dict with keys `agent_name`, `task` and optionally
`context` (the embedding covers steps whose `agent_name` and `task` keys are
present). -/
structure Step where
  agent_name : String
  task : String
  context : Option Ctx

/-- One executed step of a workflow, as observed at the `agent.run` call:
the enumeration index, the agent name, the task, the context dict passed to
`run`, and the response it returned. -/
structure TraceEntry where
  idx : Nat
  agent_name : String
  task : String
  ctx : Ctx
  resp : AgentResponse

/-- Output of the sequential workflow: the returned `results` list, the step
dicts as the caller observes them after the call (in-place context mutation
included), and the trace of executed steps. -/
structure SeqOut where
  results : List AgentResponse
  final_steps : List Step
  trace : List TraceEntry

/-- The context dict an executed sequential step hands to `agent.run`:
the step context (or a fresh empty dict), with
`context["previous_results"] = [r.content for r in results]` assigned when
the `enumerate` index `i` is positive.  A step whose agent name is not
registered is skipped (`continue`) before this mutation; when the step dict
carried a context, the assignment mutates that same dict in place. -/
def seqStepCtx (s : Step) (i : Nat) (results : List AgentResponse) : Ctx :=
  if 0 < i then
    setKey (s.context.getD []) "previous_results"
      (Value.list (results.map (fun r => Value.str r.content)))
  else s.context.getD []

/-- The loop body of `execute_sequential_workflow`, one call per remaining
step, threading the enumeration index and the accumulated results. -/
def execSeqAux (reg : List (String × Agent)) :
    List Step → Nat → List AgentResponse → SeqOut
  | [], _, results => ⟨results, [], []⟩
  | s :: rest, i, results =>
    match lookupKey reg s.agent_name with
    | none =>
      let out := execSeqAux reg rest (i + 1) results
      ⟨out.results, s :: out.final_steps, out.trace⟩
    | some agent =>
      let ctx := seqStepCtx s i results
      let response := (Agent.run agent s.task (some ctx)).1
      let out := execSeqAux reg rest (i + 1) (results ++ [response])
      ⟨out.results,
       { s with context := s.context.map (fun _ => ctx) } :: out.final_steps,
       ⟨i, s.agent_name, s.task, ctx, response⟩ :: out.trace⟩

/-- `OrchestratorAgent.execute_sequential_workflow`. -/
def execute_sequential_workflow (reg : List (String × Agent)) (tasks : List Step) : SeqOut :=
  execSeqAux reg tasks 0 []

/-- `OrchestratorAgent.execute_parallel_workflow` (sequential under the hood):
unregistered steps are skipped, each executed step runs with its own context
dict (or a fresh empty one), no context mutation. -/
def execute_parallel_workflow (reg : List (String × Agent)) :
    List Step → List AgentResponse
  | [] => []
  | s :: rest =>
    match lookupKey reg s.agent_name with
    | none => execute_parallel_workflow reg rest
    | some agent =>
      (Agent.run agent s.task (some (s.context.getD []))).1 ::
        execute_parallel_workflow reg rest

/-- The enumerated agent blocks of the synthesis prompt, starting at 1. -/
def synthesisBlocks : Nat → List AgentResponse → String
  | _, [] => ""
  | i, r :: rest =>
      "Agent " ++ toString i ++ " (" ++ r.agent_name ++ "):\n" ++ r.content ++ "\n\n" ++
        synthesisBlocks (i + 1) rest

/-- The synthesis prompt built by `OrchestratorAgent._synthesize_results`
for a non-empty result list. -/
def synthesisPrompt (original_task : String) (results : List AgentResponse) : String :=
  "Original Task: " ++ original_task ++ "\n\n" ++
  "Results from specialized agents:\n\n" ++
  synthesisBlocks 1 results ++
  "\nPlease synthesize these results into a comprehensive, coherent response that:\n1. Combines insights from all agents\n2. Resolves any contradictions\n3. Provides a complete answer to the original task\n4. Highlights key findings and recommendations\n"

/-- `OrchestratorAgent._synthesize_results`, paired with the transcript of
messages sent to the Model Gateway.  An empty result list short-circuits to
the fixed completed response with an empty transcript; otherwise the
synthesis prompt goes through `generate_with_tools` and contribution
metadata is added to the returned response. -/
def synthesize_results (g : GenAgent) (results : List AgentResponse)
    (original_task : String) : AgentResponse × List Sent :=
  if results.isEmpty then
    ({ agent_name := g.name, content := "No results to synthesize",
       status := AgentStatus.completed }, [])
  else
    let p := generate_with_tools_t g (synthesisPrompt original_task results)
    let synthesized := p.1
    ({ synthesized with
        metadata :=
          setKey
            (setKey synthesized.metadata "contributing_agents"
              (Value.list (results.map (fun r => Value.str r.agent_name))))
            "num_agents" (Value.nat results.length) }, p.2)

/-- A tool executable that always succeeds with a fixed result. -/
def sampleFn : ToolFn := fun _ => Except.ok (Value.str "out")

/-- A concrete agent whose pre/post hooks are the identity and whose
`process_task` answers `echo:` followed by the task. -/
def echoAgent (nm : String) : Agent where
  name := nm
  preprocess := fun task _ => Except.ok task
  process := fun task _ =>
    Except.ok { agent_name := nm, content := "echo:" ++ task, status := AgentStatus.completed }
  postprocess := fun r => Except.ok r

/-- A concrete agent answering a fixed output, for collaboration scenarios. -/
def mkConstAgent (nm out : String) : Agent where
  name := nm
  preprocess := fun task _ => Except.ok task
  process := fun _ _ =>
    Except.ok { agent_name := nm, content := out, status := AgentStatus.completed }
  postprocess := fun r => Except.ok r

/-- A concrete agent whose `process_task` raises. -/
def raisingAgent : Agent where
  name := "R"
  preprocess := fun task _ => Except.ok task
  process := fun _ _ => Except.error "boom"
  postprocess := fun r => Except.ok r

/-- An agent state with no configured project target: the model was never
initialized, so `generate_with_tools` returns a failed response. -/
def gUninit : GenAgent :=
  ⟨"G", "gemini-2.5-flash-preview-5-20", "0.7", false, [], [], []⟩

/-- A fresh initialized agent state with empty tool registries. -/
def gFresh : GenAgent :=
  ⟨"G", "gemini-2.5-flash-preview-5-20", "0.7", true, [], [], []⟩

/-- A model response requesting the tool `echo` with no arguments. -/
def respFC : ModelResponse := ⟨[RespPart.functionCall "echo" []], none, "resp"⟩

/-- A model response carrying a final text answer. -/
def respDone : ModelResponse := ⟨[], some "done", "resp"⟩

/-- An agent state whose gateway script answers one tool request and then
raises a transport error. -/
def gC1 : GenAgent :=
  ⟨"G", "m", "0.7", true, [], [("echo", sampleFn)],
   [Except.ok respFC, Except.error "boom"]⟩

/-- Two tool registrations with distinct names. -/
def regsW : List ToolReg :=
  [⟨"a", "da", sampleFn, Value.dict []⟩, ⟨"b", "db", sampleFn, Value.dict []⟩]

/-- A registry holding two echo agents. -/
def regW : List (String × Agent) := [("A", echoAgent "A"), ("B", echoAgent "B")]

/-- A registry holding only agent `A`. -/
def regCX : List (String × Agent) := [("A", echoAgent "A")]

/-- A two-step workflow; the second step dict carries a context mapping. -/
def stepsW : List Step :=
  [⟨"A", "t1", none⟩, ⟨"B", "t2", some [("k", Value.str "v")]⟩]

theorem lookupKey_setKey_self {α : Type u} (l : List (String × α)) (k : String) (v : α) :
    lookupKey (setKey l k v) k = some v := by
  induction l with
  | nil => simp [setKey, lookupKey]
  | cons p rest ih =>
    obtain ⟨k', v'⟩ := p
    by_cases h : k' = k
    · simp [setKey, h, lookupKey]
    · simp [setKey, h, lookupKey, ih]

theorem lookupKey_append {α : Type u} (l1 l2 : List (String × α)) (k : String) :
    lookupKey (l1 ++ l2) k
      = match lookupKey l1 k with
        | some v => some v
        | none => lookupKey l2 k := by
  induction l1 with
  | nil => simp [lookupKey]
  | cons p rest ih =>
    obtain ⟨k', v'⟩ := p
    by_cases h : k' = k
    · simp [lookupKey, h]
    · simp [lookupKey, h, ih]

theorem setKey_of_lookupKey_none {α : Type u} (l : List (String × α)) (k : String) (v : α)
    (h : lookupKey l k = none) : setKey l k v = l ++ [(k, v)] := by
  induction l with
  | nil => simp [setKey]
  | cons p rest ih =>
    obtain ⟨k', v'⟩ := p
    by_cases hk : k' = k
    · simp [lookupKey, hk] at h
    · simp [lookupKey, hk] at h
      simp [setKey, hk, ih h]

theorem setKey_length_of_isSome {α : Type u} (l : List (String × α)) (k : String) (v : α)
    (h : (lookupKey l k).isSome = true) : (setKey l k v).length = l.length := by
  induction l with
  | nil => simp [lookupKey] at h
  | cons p rest ih =>
    obtain ⟨k', v'⟩ := p
    by_cases hk : k' = k
    · simp [setKey, hk]
    · simp [lookupKey, hk] at h
      simp [setKey, hk, ih h]

/-- Claim C1 (counterexample): with a registered tool, a script that answers
one tool request and then raises `boom` makes the loop accumulate one
`ToolInvocationRecord` before the failure, yet the returned failed response
carries an empty `tool_calls` list: the record produced before the failure is
not attached. -/
theorem c1_counterexample :
    convLoop gC1.tool_functions respFC [Except.error "boom"] [] [Sent.prompt "p"]
        = LoopOut.failed "boom" [⟨"echo", [], Value.str "out"⟩]
            [Sent.prompt "p",
             Sent.functionResponse "echo" (Value.dict [("result", Value.str "out")])]
    ∧ (generate_with_tools gC1 "p").tool_calls = []
    ∧ (generate_with_tools gC1 "p").error = some "boom" :=
  ⟨rfl, rfl, rfl⟩

/-- Claim C1 (amended): if a `send_message` call raises during the
conversation loop, `generate_with_tools` returns a `Failed` response whose
error message is the underlying exception text verbatim, but the
`ToolInvocationRecord` list accumulated before the failure is discarded: the
returned `tool_calls` list is empty. -/
theorem c1_gateway_failure (g : GenAgent) (prompt : String) (r : ModelResponse)
    (rest : GatewayScript) (e : String) (pend : List ToolCallRec) (sent : List Sent)
    (hm : g.model_initialized = true)
    (hs : g.script = Except.ok r :: rest)
    (hl : convLoop g.tool_functions r rest [] [Sent.prompt prompt]
            = LoopOut.failed e pend sent) :
    generate_with_tools g prompt
      = { agent_name := g.name, content := "", status := AgentStatus.failed,
          tool_calls := [], error := some e } := by
  simp [generate_with_tools, generate_with_tools_t, hm, hs, hl]

/-- Claim C1 (witness): the amended statement at the concrete failing
script. -/
theorem c1_gateway_failure_witness :
    generate_with_tools gC1 "p"
      = { agent_name := gC1.name, content := "", status := AgentStatus.failed,
          tool_calls := [], error := some "boom" } :=
  c1_gateway_failure gC1 "p" respFC [Except.error "boom"] "boom"
    [⟨"echo", [], Value.str "out"⟩]
    [Sent.prompt "p", Sent.functionResponse "echo" (Value.dict [("result", Value.str "out")])]
    rfl rfl rfl

/-- Claim C2: a model tool-call request naming a tool absent from the
registry does not raise: `_handle_tool_call` returns the structured
`Tool not found` error dict, the loop appends a `ToolInvocationRecord` for
the call, feeds the error result back into the conversation as the next
`send_message` turn, and continues the protocol with the next reply. -/
theorem c2_unknown_tool (tfs : List (String × ToolFn)) (resp : ModelResponse)
    (fname : String) (fargs : List (String × Value)) (ps : List RespPart)
    (next : ModelResponse) (s' : GatewayScript) (acc : List ToolCallRec)
    (sent : List Sent)
    (hp : resp.parts = RespPart.functionCall fname fargs :: ps)
    (hn : lookupKey tfs fname = none) :
    handle_tool_call tfs fname fargs
        = Value.dict [("error", Value.str ("Tool not found: " ++ fname))]
    ∧ convLoop tfs resp (Except.ok next :: s') acc sent
        = convLoop tfs next s'
            (acc ++ [⟨fname, fargs,
                Value.dict [("error", Value.str ("Tool not found: " ++ fname))]⟩])
            (sent ++ [Sent.functionResponse fname
                (Value.dict [("result",
                  Value.dict [("error", Value.str ("Tool not found: " ++ fname))])])]) := by
  have hh : handle_tool_call tfs fname fargs
      = Value.dict [("error", Value.str ("Tool not found: " ++ fname))] := by
    simp [handle_tool_call, hn]
  refine ⟨hh, ?_⟩
  obtain ⟨parts, text, rs⟩ := resp
  simp only at hp
  subst hp
  rw [← hh]
  rfl

/-- Claim C2 (witness): the unknown-tool step at a concrete loop state. -/
theorem c2_unknown_tool_witness :
    handle_tool_call [] "missing" []
        = Value.dict [("error", Value.str ("Tool not found: " ++ "missing"))]
    ∧ convLoop [] ⟨[RespPart.functionCall "missing" []], none, "resp"⟩
          (Except.ok respDone :: []) [] []
        = convLoop [] respDone []
            ([] ++ [⟨"missing", [],
                Value.dict [("error", Value.str ("Tool not found: " ++ "missing"))]⟩])
            ([] ++ [Sent.functionResponse "missing"
                (Value.dict [("result",
                  Value.dict [("error", Value.str ("Tool not found: " ++ "missing"))])])]) :=
  c2_unknown_tool [] ⟨[RespPart.functionCall "missing" []], none, "resp"⟩
    "missing" [] [] respDone [] [] [] rfl rfl

/-- Claim C3: if `preprocess_task`, `process_task` or
`postprocess_response` raises, `run` catches the exception and returns a
`Failed` response carrying the exception text (prefixed by
`Agent execution failed: `), with the agent status set to failed; `run`
itself is a total function and never propagates the exception. -/
theorem c3_run_catches (a : Agent) (task : String) (context : Option Ctx) (e : String)
    (h : a.preprocess task context = Except.error e
       ∨ (∃ pt, a.preprocess task context = Except.ok pt
            ∧ a.process pt context = Except.error e)
       ∨ (∃ pt r, a.preprocess task context = Except.ok pt
            ∧ a.process pt context = Except.ok r
            ∧ a.postprocess r = Except.error e)) :
    Agent.run a task context
      = ({ agent_name := a.name, content := "", status := AgentStatus.failed,
           error := some ("Agent execution failed: " ++ e) }, AgentStatus.failed) := by
  have hrx : Agent.runExcept a task context = Except.error e := by
    rcases h with h1 | ⟨pt, h1, h2⟩ | ⟨pt, r, h1, h2, h3⟩
    · simp [Agent.runExcept, h1, bind, Except.bind]
    · simp [Agent.runExcept, h1, h2, bind, Except.bind]
    · simp [Agent.runExcept, h1, h2, h3, bind, Except.bind]
  simp [Agent.run, hrx]

/-- Claim C3 (witness): a concrete raising `process_task`. -/
theorem c3_run_catches_witness :
    Agent.run raisingAgent "t" none
      = ({ agent_name := raisingAgent.name, content := "",
           status := AgentStatus.failed,
           error := some ("Agent execution failed: " ++ "boom") }, AgentStatus.failed) :=
  c3_run_catches raisingAgent "t" none "boom" (Or.inr (Or.inl ⟨"t", rfl, rfl⟩))

/-- Claim C4: synthesis over an empty result list returns a `Completed`
response whose content is exactly `No results to synthesize`, with an empty
gateway transcript: the Model Gateway is not called. -/
theorem c4_empty_synthesis (g : GenAgent) (task : String) :
    synthesize_results g [] task
      = ({ agent_name := g.name, content := "No results to synthesize",
           status := AgentStatus.completed }, ([] : List Sent)) :=
  rfl

/-- Claim C9: when no stage of `run` raises, `run` returns the response of
`postprocess_response` unchanged and sets the agent status to `COMPLETED`,
regardless of the status stored inside the returned response. -/
theorem c9_status_completed (a : Agent) (task : String) (context : Option Ctx)
    (r : AgentResponse) (h : Agent.runExcept a task context = Except.ok r) :
    Agent.run a task context = (r, AgentStatus.completed) := by
  simp [Agent.run, h]

/-- Claim C9 (witness): an agent whose `process_task` returns the failed
response of `generate_with_tools` on an uninitialized model: after `run`,
the agent status is completed while the returned response status is
failed. -/
theorem c9_status_completed_witness :
    Agent.run
        ⟨"L", fun task _ => Except.ok task,
          fun task _ => Except.ok (generate_with_tools gUninit task),
          fun r => Except.ok r⟩ "t" none
      = (generate_with_tools gUninit "t", AgentStatus.completed)
    ∧ (generate_with_tools gUninit "t").status = AgentStatus.failed :=
  ⟨c9_status_completed
      ⟨"L", fun task _ => Except.ok task,
        fun task _ => Except.ok (generate_with_tools gUninit task),
        fun r => Except.ok r⟩ "t" none (generate_with_tools gUninit "t") rfl,
   rfl⟩

theorem add_tools_spec (regs : List ToolReg) : ∀ g : GenAgent,
    (∀ r ∈ regs, lookupKey g.tool_functions r.name = none) →
    (regs.map ToolReg.name).Nodup →
    (add_tools g regs).tool_functions
        = g.tool_functions ++ regs.map (fun r => (r.name, r.fn))
    ∧ (add_tools g regs).tools
        = g.tools ++ regs.map
            (fun r => (⟨r.name, r.description, r.parameters⟩ : FunctionDeclaration)) := by
  induction regs with
  | nil => intro g _ _; simp [add_tools]
  | cons r rest ih =>
    intro g hnone hnd
    have hr : lookupKey g.tool_functions r.name = none := hnone r (by simp)
    have hg' : (add_tool g r.name r.description r.fn r.parameters).tool_functions
        = g.tool_functions ++ [(r.name, r.fn)] := by
      simp [add_tool, setKey_of_lookupKey_none _ _ _ hr]
    rw [List.map_cons, List.nodup_cons] at hnd
    have hcond : ∀ r' ∈ rest,
        lookupKey (add_tool g r.name r.description r.fn r.parameters).tool_functions r'.name
          = none := by
      intro r' hmem
      rw [hg', lookupKey_append]
      have h1 : lookupKey g.tool_functions r'.name = none :=
        hnone r' (List.mem_cons_of_mem _ hmem)
      rw [h1]
      have hne : r.name ≠ r'.name := by
        intro he
        exact hnd.1 (he ▸ List.mem_map_of_mem ToolReg.name hmem)
      simp [lookupKey, hne]
    obtain ⟨h1, h2⟩ := ih _ hcond hnd.2
    constructor
    · rw [add_tools, h1, hg']; simp
    · rw [add_tools, h2]; simp [add_tool]

/-- Claim C7 (counterexample): registering a second tool under an already
used name does not leave the registry unchanged: `self.tool_functions` is
overwritten (size stays 1) but `self.tools` gains a second declaration with
the same name (size becomes 2), so the agent now carries a duplicate
declaration rather than a pure overwrite. -/
theorem c7_counterexample :
    (add_tool (add_tool gFresh "t" "d" sampleFn (Value.dict [])) "t" "d2" sampleFn
        (Value.dict [])).tools.length = 2
    ∧ (add_tool (add_tool gFresh "t" "d" sampleFn (Value.dict [])) "t" "d2" sampleFn
        (Value.dict [])).tool_functions.length = 1 :=
  ⟨rfl, rfl⟩

/-- Claim C7 (amended): starting from empty registries, N registrations with
pairwise distinct names leave both `self.tools` and `self.tool_functions`
with exactly N entries; registering a further tool under a name already
present overwrites the entry of `self.tool_functions` (its size is
unchanged) but appends one more declaration to `self.tools` (its size grows
by one). -/
theorem c7_registry_sizes (g : GenAgent) (regs : List ToolReg)
    (h0 : g.tools = []) (h1 : g.tool_functions = [])
    (hnd : (regs.map ToolReg.name).Nodup) :
    (add_tools g regs).tools.length = regs.length
    ∧ (add_tools g regs).tool_functions.length = regs.length
    ∧ ∀ (n d : String) (f : ToolFn) (p : Value),
        (lookupKey (add_tools g regs).tool_functions n).isSome = true →
          (add_tool (add_tools g regs) n d f p).tool_functions.length
              = (add_tools g regs).tool_functions.length
          ∧ (add_tool (add_tools g regs) n d f p).tools.length
              = (add_tools g regs).tools.length + 1 := by
  have hcond : ∀ r ∈ regs, lookupKey g.tool_functions r.name = none := by
    intro r _; rw [h1]; rfl
  obtain ⟨htf, hts⟩ := add_tools_spec regs g hcond hnd
  refine ⟨by rw [hts, h0]; simp, by rw [htf, h1]; simp, ?_⟩
  intro n d f p hsome
  constructor
  · simp [add_tool, setKey_length_of_isSome _ _ _ hsome]
  · simp [add_tool]

/-- Claim C7 (witness): two distinct registrations followed by a duplicate
registration of name `a`. -/
theorem c7_registry_sizes_witness :
    (add_tool (add_tools gFresh regsW) "a" "d2" sampleFn (Value.dict [])).tool_functions.length
        = (add_tools gFresh regsW).tool_functions.length
    ∧ (add_tool (add_tools gFresh regsW) "a" "d2" sampleFn (Value.dict [])).tools.length
        = (add_tools gFresh regsW).tools.length + 1 :=
  (c7_registry_sizes gFresh regsW rfl rfl (by decide)).2.2 "a" "d2" sampleFn
    (Value.dict []) (by decide)

/-- Claim C8 (counterexample): two agents that share the configured name
`X`: the collaboration dict is keyed by agent name, so it collapses to a
single entry holding only the second response; the first response (content
`ra`, distinct from `rb`) is not contained in the returned mapping. -/
theorem c8_counterexample :
    (collaborate (mkConstAgent "X" "ra") (mkConstAgent "X" "rb") "t").mapping.length = 1
    ∧ (collaborate (mkConstAgent "X" "ra") (mkConstAgent "X" "rb") "t").my_response.content
        = "ra"
    ∧ (collaborate (mkConstAgent "X" "ra") (mkConstAgent "X" "rb") "t").mapping.map
        (fun p => p.2.content) = ["rb"] :=
  ⟨rfl, rfl, rfl⟩

/-- Claim C8 (amended): for agents with distinct configured names,
`collaborate` runs the first agent on the task, hands the second agent the
derived task embedding the first output plus the original task, passes it a
context whose `previous_agent` entry is the first agent name and whose
`previous_response` entry is the first output text verbatim, and returns
both responses keyed by the respective agent names. -/
theorem c8_collaborate (a b : Agent) (task : String) (hne : a.name ≠ b.name) :
    (collaborate a b task).my_response = (Agent.run a task none).1
    ∧ (collaborate a b task).other_task
        = "Build upon this previous work:\n" ++ (collaborate a b task).my_response.content
            ++ "\n\nTask: " ++ task
    ∧ lookupKey (collaborate a b task).other_context "previous_agent"
        = some (Value.str a.name)
    ∧ lookupKey (collaborate a b task).other_context "previous_response"
        = some (Value.str (collaborate a b task).my_response.content)
    ∧ (collaborate a b task).other_response
        = (Agent.run b (collaborate a b task).other_task
            (some (collaborate a b task).other_context)).1
    ∧ (collaborate a b task).mapping
        = [(a.name, (collaborate a b task).my_response),
           (b.name, (collaborate a b task).other_response)] := by
  refine ⟨rfl, rfl, ?_, ?_, rfl, ?_⟩
  · simp [collaborate, lookupKey]
  · simp [collaborate, lookupKey]
  · simp [collaborate, setKey, hne]

/-- Claim C8 (witness): the amended statement for two concrete agents with
distinct names. -/
theorem c8_collaborate_witness :
    (collaborate (mkConstAgent "A" "ra") (mkConstAgent "B" "rb") "t").mapping
      = [("A", (collaborate (mkConstAgent "A" "ra") (mkConstAgent "B" "rb") "t").my_response),
         ("B", (collaborate (mkConstAgent "A" "ra") (mkConstAgent "B" "rb") "t").other_response)] :=
  (c8_collaborate (mkConstAgent "A" "ra") (mkConstAgent "B" "rb") "t" (by decide)).2.2.2.2.2

theorem execSeqAux_cons_none (reg : List (String × Agent)) (s : Step) (rest : List Step)
    (i : Nat) (acc : List AgentResponse) (hreg : lookupKey reg s.agent_name = none) :
    execSeqAux reg (s :: rest) i acc
      = ⟨(execSeqAux reg rest (i + 1) acc).results,
         s :: (execSeqAux reg rest (i + 1) acc).final_steps,
         (execSeqAux reg rest (i + 1) acc).trace⟩ := by
  simp only [execSeqAux, hreg]

theorem execSeqAux_cons_some (reg : List (String × Agent)) (s : Step) (rest : List Step)
    (i : Nat) (acc : List AgentResponse) (agent : Agent)
    (hreg : lookupKey reg s.agent_name = some agent) :
    execSeqAux reg (s :: rest) i acc
      = ⟨(execSeqAux reg rest (i + 1)
            (acc ++ [(Agent.run agent s.task (some (seqStepCtx s i acc))).1])).results,
         { s with context := s.context.map (fun _ => seqStepCtx s i acc) } ::
           (execSeqAux reg rest (i + 1)
             (acc ++ [(Agent.run agent s.task (some (seqStepCtx s i acc))).1])).final_steps,
         ⟨i, s.agent_name, s.task, seqStepCtx s i acc,
            (Agent.run agent s.task (some (seqStepCtx s i acc))).1⟩ ::
           (execSeqAux reg rest (i + 1)
             (acc ++ [(Agent.run agent s.task (some (seqStepCtx s i acc))).1])).trace⟩ := by
  simp only [execSeqAux, hreg]

theorem execSeqAux_spec (reg : List (String × Agent)) :
    ∀ (steps : List Step) (i : Nat) (acc : List AgentResponse),
      (execSeqAux reg steps i acc).results
          = acc ++ (execSeqAux reg steps i acc).trace.map TraceEntry.resp
      ∧ (execSeqAux reg steps i acc).trace.map (fun t => (t.agent_name, t.task))
          = steps.filterMap (fun s =>
              if (lookupKey reg s.agent_name).isSome = true
              then some (s.agent_name, s.task) else none)
      ∧ (∀ t ∈ (execSeqAux reg steps i acc).trace,
            ∃ a, lookupKey reg t.agent_name = some a
              ∧ t.resp = (Agent.run a t.task (some t.ctx)).1)
      ∧ ∀ (j : Nat) (t : TraceEntry),
            (execSeqAux reg steps i acc).trace.get? j = some t →
            0 < t.idx →
            lookupKey t.ctx "previous_results"
              = some (Value.list
                  ((acc ++ ((execSeqAux reg steps i acc).trace.map TraceEntry.resp).take j).map
                    (fun r => Value.str r.content))) := by
  intro steps
  induction steps with
  | nil =>
    intro i acc
    refine ⟨by simp [execSeqAux], by simp [execSeqAux], by simp [execSeqAux], ?_⟩
    intro j t ht
    simp [execSeqAux] at ht
  | cons s rest ih =>
    intro i acc
    cases hreg : lookupKey reg s.agent_name with
    | none =>
      obtain ⟨ih1, ih2, ih3, ih4⟩ := ih (i + 1) acc
      rw [execSeqAux_cons_none reg s rest i acc hreg]
      refine ⟨ih1, ?_, ih3, ih4⟩
      rw [List.filterMap_cons]
      simp [hreg, ih2]
    | some agent =>
      obtain ⟨ih1, ih2, ih3, ih4⟩ :=
        ih (i + 1) (acc ++ [(Agent.run agent s.task (some (seqStepCtx s i acc))).1])
      rw [execSeqAux_cons_some reg s rest i acc agent hreg]
      refine ⟨?_, ?_, ?_, ?_⟩
      · simp only [List.map_cons]
        rw [ih1]
        simp
      · rw [List.filterMap_cons]
        simp [hreg, ih2]
      · intro t ht
        rcases List.mem_cons.mp ht with h | h
        · subst h
          exact ⟨agent, hreg, rfl⟩
        · exact ih3 t h
      · intro j t ht hidx
        cases j with
        | zero =>
          simp only [List.get?_cons_zero, Option.some.injEq] at ht
          subst ht
          simp only at hidx
          simp only [List.take_zero, List.append_nil]
          simp only [seqStepCtx, if_pos hidx]
          exact lookupKey_setKey_self _ _ _
        | succ j' =>
          simp only [List.get?_cons_succ] at ht
          have h := ih4 j' t ht hidx
          simp only [List.map_cons, List.take_succ_cons]
          simpa using h

theorem execSeqAux_steps_spec (reg : List (String × Agent)) :
    ∀ (steps : List Step) (i : Nat) (acc : List AgentResponse) (j : Nat) (s : Step),
      steps.get? j = some s →
      ( lookupKey reg s.agent_name = none →
          (execSeqAux reg steps i acc).final_steps.get? j = some s )
      ∧ ( (lookupKey reg s.agent_name).isSome = true → 0 < i + j →
            s.context.isSome = true →
            (((execSeqAux reg steps i acc).final_steps.get? j).bind Step.context).isSome = true
            ∧ (lookupKey ((((execSeqAux reg steps i acc).final_steps.get? j).bind
                Step.context).getD []) "previous_results").isSome = true ) := by
  intro steps
  induction steps with
  | nil => intro i acc j s hs; simp at hs
  | cons s0 rest ih =>
    intro i acc j s hs
    cases hreg0 : lookupKey reg s0.agent_name with
    | none =>
      rw [execSeqAux_cons_none reg s0 rest i acc hreg0]
      cases j with
      | zero =>
        simp only [List.get?_cons_zero, Option.some.injEq] at hs
        subst hs
        refine ⟨fun _ => rfl, fun habs _ _ => ?_⟩
        rw [hreg0] at habs
        simp at habs
      | succ j' =>
        simp only [List.get?_cons_succ] at hs ⊢
        have h := ih (i + 1) acc j' s hs
        have harith : i + (j' + 1) = (i + 1) + j' := by omega
        refine ⟨h.1, fun h1 h2 h3 => ?_⟩
        exact h.2 h1 (by omega) h3
    | some agent =>
      rw [execSeqAux_cons_some reg s0 rest i acc agent hreg0]
      cases j with
      | zero =>
        simp only [List.get?_cons_zero, Option.some.injEq] at hs
        subst hs
        constructor
        · intro hn
          rw [hn] at hreg0
          cases hreg0
        · intro _ hpos hctx
          obtain ⟨c0, hc0⟩ := Option.isSome_iff_exists.mp hctx
          have hpos' : 0 < i := by simpa using hpos
          simp [hc0, seqStepCtx, hpos', lookupKey_setKey_self]
      | succ j' =>
        simp only [List.get?_cons_succ] at hs ⊢
        have h := ih (i + 1)
          (acc ++ [(Agent.run agent s0.task (some (seqStepCtx s0 i acc))).1]) j' s hs
        refine ⟨h.1, fun h1 h2 h3 => ?_⟩
        exact h.2 h1 (by omega) h3

theorem execPar_eq (reg : List (String × Agent)) : ∀ steps : List Step,
    execute_parallel_workflow reg steps
      = steps.filterMap (fun s => (lookupKey reg s.agent_name).map
          (fun a => (Agent.run a s.task (some (s.context.getD []))).1)) := by
  intro steps
  induction steps with
  | nil => rfl
  | cons s rest ih =>
    cases hreg : lookupKey reg s.agent_name with
    | none => simp [execute_parallel_workflow, hreg, ih, List.filterMap_cons]
    | some agent => simp [execute_parallel_workflow, hreg, ih, List.filterMap_cons]

/-- Claim C5: in a sequential workflow, the context handed to the agent of
the j-th executed step, whenever that step has enumeration index above 0,
holds under `previous_results` exactly the list of content texts of the
responses produced by the preceding executed steps (the first j entries of
the returned results list). -/
theorem c5_previous_results (reg : List (String × Agent)) (steps : List Step)
    (j : Nat) (t : TraceEntry)
    (ht : (execute_sequential_workflow reg steps).trace.get? j = some t)
    (hidx : 0 < t.idx) :
    lookupKey t.ctx "previous_results"
      = some (Value.list (((execute_sequential_workflow reg steps).results.take j).map
          (fun r => Value.str r.content))) := by
  obtain ⟨h1, _, _, h4⟩ := execSeqAux_spec reg steps 0 []
  have h := h4 j t (by simpa [execute_sequential_workflow] using ht) hidx
  simp only [execute_sequential_workflow]
  rw [h1]
  simpa using h

/-- Claim C5 (witness): a two-step workflow where both agents are
registered; step 2 receives the content of step 1 (`echo:t1`) verbatim
under `previous_results`. -/
theorem c5_previous_results_witness :
    lookupKey
        (⟨1, "B", "t2",
          [("k", Value.str "v"),
           ("previous_results", Value.list [Value.str "echo:t1"])],
          ⟨"B", "echo:t2", AgentStatus.completed, [], [], none⟩⟩ : TraceEntry).ctx
        "previous_results"
      = some (Value.list (((execute_sequential_workflow regW stepsW).results.take 1).map
          (fun r => Value.str r.content))) :=
  c5_previous_results regW stepsW 1
    ⟨1, "B", "t2",
      [("k", Value.str "v"),
       ("previous_results", Value.list [Value.str "echo:t1"])],
      ⟨"B", "echo:t2", AgentStatus.completed, [], [], none⟩⟩ rfl (by decide)

/-- Claim C6: in both workflow shapes a step naming an unregistered agent
is skipped without aborting the remaining steps: the parallel output equals
the registered steps filtered in input order and run independently; the
sequential results list is exactly the executed-step trace in input order
(skipped steps simply absent, no padding), and every executed entry is the
run of its registered agent on its task with its passed context. -/
theorem c6_skipped_steps (reg : List (String × Agent)) (steps : List Step) :
    execute_parallel_workflow reg steps
      = steps.filterMap (fun s => (lookupKey reg s.agent_name).map
          (fun a => (Agent.run a s.task (some (s.context.getD []))).1))
    ∧ (execute_sequential_workflow reg steps).results
      = (execute_sequential_workflow reg steps).trace.map TraceEntry.resp
    ∧ (execute_sequential_workflow reg steps).trace.map (fun t => (t.agent_name, t.task))
      = steps.filterMap (fun s =>
          if (lookupKey reg s.agent_name).isSome = true
          then some (s.agent_name, s.task) else none)
    ∧ ∀ t ∈ (execute_sequential_workflow reg steps).trace,
        ∃ a, lookupKey reg t.agent_name = some a
          ∧ t.resp = (Agent.run a t.task (some t.ctx)).1 := by
  obtain ⟨h1, h2, h3, _⟩ := execSeqAux_spec reg steps 0 []
  refine ⟨execPar_eq reg steps, ?_, ?_, ?_⟩
  · simpa [execute_sequential_workflow] using h1
  · simpa [execute_sequential_workflow] using h2
  · simpa [execute_sequential_workflow] using h3

/-- Claim C6 (witness): the parallel characterization at a registry holding
only agent `A` and a two-step workflow whose second step names the
unregistered agent `B`. -/
theorem c6_skipped_steps_witness :
    execute_parallel_workflow regCX stepsW
      = stepsW.filterMap (fun s => (lookupKey regCX s.agent_name).map
          (fun a => (Agent.run a s.task (some (s.context.getD []))).1)) :=
  (c6_skipped_steps regCX stepsW).1

/-- Claim C10 (counterexample): a two-step workflow whose second step
carries a context mapping but names an unregistered agent: after the call
the step dict is unchanged and its context did not gain a
`previous_results` key, contradicting the claim for every step of index
above 0 carrying a context. -/
theorem c10_counterexample :
    (execute_sequential_workflow regCX stepsW).final_steps.get? 1
        = some ⟨"B", "t2", some [("k", Value.str "v")]⟩
    ∧ lookupKey ([("k", Value.str "v")] : Ctx) "previous_results" = none :=
  ⟨rfl, rfl⟩

/-- Claim C10 (amended): `execute_sequential_workflow` mutates the
caller-supplied step dicts in place for executed steps only: a step of
index above 0 whose agent name is registered and whose dict carries a
context mapping sees that mapping gain a `previous_results` key observable
after the call, while a step skipped for an unregistered agent name keeps
its dict unchanged. -/
theorem c10_context_mutation (reg : List (String × Agent)) (steps : List Step)
    (j : Nat) (s : Step) (hs : steps.get? j = some s) :
    (lookupKey reg s.agent_name = none →
        (execute_sequential_workflow reg steps).final_steps.get? j = some s)
    ∧ ((lookupKey reg s.agent_name).isSome = true → 0 < j →
        s.context.isSome = true →
        (((execute_sequential_workflow reg steps).final_steps.get? j).bind
            Step.context).isSome = true
        ∧ (lookupKey ((((execute_sequential_workflow reg steps).final_steps.get? j).bind
              Step.context).getD []) "previous_results").isSome = true) := by
  have h := execSeqAux_steps_spec reg steps 0 [] j s hs
  constructor
  · intro hn
    simpa [execute_sequential_workflow] using h.1 hn
  · intro h1 h2 h3
    simpa [execute_sequential_workflow] using h.2 h1 (by omega) h3

/-- Claim C10 (witness): with both agents registered, the second step dict
context gains the `previous_results` key, observable after the call. -/
theorem c10_context_mutation_witness :
    (((execute_sequential_workflow regW stepsW).final_steps.get? 1).bind
        Step.context).isSome = true
    ∧ (lookupKey ((((execute_sequential_workflow regW stepsW).final_steps.get? 1).bind
          Step.context).getD []) "previous_results").isSome = true :=
  (c10_context_mutation regW stepsW 1 ⟨"B", "t2", some [("k", Value.str "v")]⟩ rfl).2
    (by decide) (by decide) (by decide)
